import Mathlib

/-!
# Verification of the rust-lox lexical scanner (`src/main.rs`, module `scanner`)

Shallow embedding of the scanner engine found in the repository:

* `TokenType`, `Token` mirror `scanner::token::TokenType` and
  `scanner::token::Token` (the `literal` field is absent in the Rust
  struct, see its TODO comment).
* `RloxSyntaxError` mirrors `error::RloxSyntaxError`.
* `Scanner` mirrors the `scanner::Scanner` struct: `source`, accumulated
  `tokens`, and the three cursor fields `start`, `current`, `line`.
  The Rust cursors are `u32`; they are modelled as `Nat` (no claim here
  depends on wraparound, every relevant input is far below `2^32`).
* `advance`, `add_token`, `scan_token`, `is_at_end`, and the
  `scan_tokens` loop are translated statement by statement.  A Rust
  panic (`Option::unwrap` on `None` inside `advance`) is modelled as the
  `none` / `ScanOutcome.panicked` case: the function does not return.

Strings are modelled at the character level (`List Char`), matching the
Rust code's use of `self.source.chars().nth(..)` and
`self.source.chars().count()`.  The one place the Rust code indexes by
byte, `&self.source[start..current]` in `add_token`, uses the same index
for both bounds, so the slice is empty in both models for every input
reachable in the claims (all ASCII).

`scan_tokens` drops the `Result` returned by `scan_token` (the Rust
line `self.scan_token();` discards the `Err` value; its TODO comment
says the errors should instead be collected).  The loop embedding
additionally records those dropped error values in a ghost list so that
theorems can talk about them; the Rust program itself never stores or
returns them.
-/

namespace Rlox

/-- The closed token-kind enumeration `scanner::token::TokenType`. -/
inductive TokenType where
  | LeftParen
  | RightParen
  | LeftBrace
  | RightBrace
  | Comma
  | Dot
  | Minus
  | Plus
  | Semicolon
  | Slash
  | Star
  | Bang
  | BangEqual
  | Equal
  | EqualEqual
  | Greater
  | GreaterEqual
  | Less
  | LessEqual
  | Identifier
  | String
  | Number
  | And
  | Class
  | Else
  | False
  | Fun
  | For
  | If
  | Nil
  | Or
  | Print
  | Return
  | Super
  | This
  | True
  | Var
  | While
  | Eof
  deriving DecidableEq, Repr

/-- `scanner::token::Token`: kind, lexeme and 1-based line number.
The Rust struct has no literal-value field (its TODO notes this). -/
structure Token where
  token_type : TokenType
  lexeme : List Char
  line_number : Nat
  deriving DecidableEq, Repr

/-- `error::RloxSyntaxError`: line, location and description. -/
structure RloxSyntaxError where
  line_number : Nat
  location : List Char
  description : List Char
  deriving DecidableEq, Repr

/-- `scanner::Scanner`: source text plus accumulated tokens and the
three cursor fields. -/
structure Scanner where
  source : List Char
  tokens : List Token
  start : Nat
  current : Nat
  line : Nat
  deriving DecidableEq, Repr

/-- `Scanner::is_at_end`: `self.current >= self.source.chars().count()`. -/
def is_at_end (s : Scanner) : Bool :=
  s.source.length ≤ s.current

/-- `Scanner::advance`: `self.current += 1;
self.source.chars().nth(self.current).unwrap()`.
The increment happens BEFORE the read, so the character returned is the
one at index `current + 1` relative to the pre-call cursor.  `none`
models the `unwrap` panic when that index is past the end. -/
def advance (s : Scanner) : Option (Char × Scanner) :=
  let s1 : Scanner := { s with current := s.current + 1 }
  match s1.source.get? s1.current with
  | some c => some (c, s1)
  | none => none

/-- The byte slice `&self.source[start..current]` taken in
`Scanner::add_token` — where the Rust code reads BOTH bounds from
`self.start` (`let current: usize = self.start.try_into().unwrap();`),
so the slice is always empty. -/
def add_token_text (s : Scanner) : List Char :=
  (s.source.take s.start).drop s.start

/-- `Scanner::add_token`: push a token whose lexeme is
`add_token_text` and whose line is the current `line`. -/
def add_token (s : Scanner) (t : TokenType) : Scanner :=
  { s with tokens := s.tokens ++ [⟨t, add_token_text s, s.line⟩] }

/-- The `match c` table of `Scanner::scan_token`: the ten
single-character punctuation kinds; every other character falls to the
`None` arm. -/
def single_char_kind (c : Char) : Option TokenType :=
  match c with
  | '(' => some .LeftParen
  | ')' => some .RightParen
  | '{' => some .LeftBrace
  | '}' => some .RightBrace
  | ',' => some .Comma
  | '.' => some .Dot
  | '-' => some .Minus
  | '+' => some .Plus
  | ';' => some .Semicolon
  | '*' => some .Star
  | _ => none

/-- `Scanner::scan_token`: consume one character via `advance`; emit
the matching single-character token, or return
`Err(RloxSyntaxError { line, "", "Unexpected character." })`.
`none` propagates the panic from `advance`. -/
def scan_token (s : Scanner) : Option (Scanner × Except RloxSyntaxError Unit) :=
  match advance s with
  | none => none
  | some (c, s1) =>
    match single_char_kind c with
    | some t => some (add_token s1 t, Except.ok ())
    | none =>
      some (s1, Except.error ⟨s1.line, [], "Unexpected character.".toList⟩)

/-- Result of running the `scan_tokens` loop: either the loop condition
became false and the function returned (`completed`), or the program
panicked inside `advance` (`panicked`, carrying the state at the failing
call for analysis).  The second component is the ghost list of
`RloxSyntaxError` values that `scan_tokens` dropped (the Rust statement
`self.scan_token();` discards the returned `Result`). -/
inductive ScanOutcome where
  | completed (s : Scanner) (dropped : List RloxSyntaxError)
  | panicked (s : Scanner) (dropped : List RloxSyntaxError)
  deriving DecidableEq, Repr

/-- The `while !self.is_at_end()` loop of `Scanner::scan_tokens`,
with an explicit iteration budget `gas` for structural recursion.
Each loop iteration sets `start := current` and calls `scan_token`,
which (when it does not panic) increments `current` by exactly one, so
`source.length - current` iterations always suffice; `scan_loop` below
supplies that budget. -/
def scan_loop_aux : Nat → Scanner → List RloxSyntaxError → ScanOutcome
  | 0, s, dropped => ScanOutcome.completed s dropped
  | gas + 1, s, dropped =>
    if is_at_end s then
      ScanOutcome.completed s dropped
    else
      let s0 : Scanner := { s with start := s.current }
      match scan_token s0 with
      | none => ScanOutcome.panicked { s0 with current := s0.current + 1 } dropped
      | some (s1, Except.ok _) => scan_loop_aux gas s1 dropped
      | some (s1, Except.error e) => scan_loop_aux gas s1 (dropped ++ [e])

/-- The loop of `Scanner::scan_tokens` from a given state. -/
def scan_loop (s : Scanner) : ScanOutcome :=
  scan_loop_aux (s.source.length - s.current) s []

/-- Modelled from the spec: the repository never constructs a
`Scanner` (the struct has no constructor function and `main` never
instantiates it), so the initial state is taken from the spec — cursors
`start`/`current` at 0, `line` at its 1-based start, no tokens yet. -/
def mk_scanner (source : List Char) : Scanner :=
  ⟨source, [], 0, 0, 1⟩

/-- `Scanner::scan_tokens` on a fresh scanner for `source`: run the
loop; on normal exit append the `Eof` token (lexeme `""`, line = the
final `line`) and return the token vector.  `none` models the panic
propagating out of the call — nothing is returned. -/
def scan_tokens (source : List Char) : Option (List Token) :=
  match scan_loop (mk_scanner source) with
  | ScanOutcome.completed s _ => some (s.tokens ++ [⟨TokenType.Eof, [], s.line⟩])
  | ScanOutcome.panicked _ _ => none

/-- All tokens the scanner ever pushes for `source`: the returned
vector (with `Eof`) on normal exit, or the tokens accumulated before
the panic. -/
def produced_tokens (source : List Char) : List Token :=
  match scan_loop (mk_scanner source) with
  | ScanOutcome.completed s _ => s.tokens ++ [⟨TokenType.Eof, [], s.line⟩]
  | ScanOutcome.panicked s _ => s.tokens

/-- The ghost list of error values `scan_tokens` dropped for `source`. -/
def dropped_errors (source : List Char) : List RloxSyntaxError :=
  match scan_loop (mk_scanner source) with
  | ScanOutcome.completed _ dropped => dropped
  | ScanOutcome.panicked _ dropped => dropped

/-- The scanner state an outcome carries (final state on normal exit,
state at the failing `advance` call on panic). -/
def outcome_state : ScanOutcome → Scanner
  | ScanOutcome.completed s _ => s
  | ScanOutcome.panicked s _ => s

/-- When `scan_token` returns, it preserves `line`, and every token it
holds was either already present or was just pushed with the current
`line`. -/
lemma scan_token_preserves {s s1 : Scanner} {r : Except RloxSyntaxError Unit}
    (h : scan_token s = some (s1, r)) :
    s1.line = s.line ∧
    ∀ tk ∈ s1.tokens, tk ∈ s.tokens ∨ tk.line_number = s.line := by
  unfold scan_token advance at h
  dsimp only at h
  cases hg : s.source.get? (s.current + 1) with
  | none =>
    rw [hg] at h
    cases h
  | some c =>
    rw [hg] at h
    dsimp only at h
    cases hk : single_char_kind c with
    | some t =>
      rw [hk] at h
      dsimp only at h
      injection h with h1
      injection h1 with hs1 hr
      subst hs1
      refine ⟨rfl, ?_⟩
      intro tk hkm
      simp only [add_token, List.mem_append, List.mem_singleton] at hkm
      rcases hkm with hkm | hkm
      · exact Or.inl hkm
      · subst hkm
        exact Or.inr rfl
    | none =>
      rw [hk] at h
      dsimp only at h
      injection h with h1
      injection h1 with hs1 hr
      subst hs1
      exact ⟨rfl, fun tk hk2 => Or.inl hk2⟩

/-- Loop invariant: the `scan_tokens` loop never changes `line`, and
every token it accumulates carries the (unchanged) current `line`. -/
lemma scan_loop_aux_state (gas : Nat) (s : Scanner) (d : List RloxSyntaxError) :
    (outcome_state (scan_loop_aux gas s d)).line = s.line ∧
    ∀ tk ∈ (outcome_state (scan_loop_aux gas s d)).tokens,
      tk ∈ s.tokens ∨ tk.line_number = s.line := by
  induction gas generalizing s d with
  | zero => exact ⟨rfl, fun tk hk => Or.inl hk⟩
  | succ gas ih =>
    rw [scan_loop_aux]
    by_cases hend : is_at_end s = true
    · rw [if_pos hend]
      exact ⟨rfl, fun tk hk => Or.inl hk⟩
    · rw [if_neg hend]
      dsimp only
      cases hst : scan_token { s with start := s.current } with
      | none =>
        exact ⟨rfl, fun tk hk => Or.inl hk⟩
      | some pr =>
        obtain ⟨s1, r⟩ := pr
        have hp := scan_token_preserves hst
        have hline : s1.line = s.line := hp.1
        have htok : ∀ tk ∈ s1.tokens, tk ∈ s.tokens ∨ tk.line_number = s.line :=
          fun tk hk => hp.2 tk hk
        cases r with
        | ok u =>
          dsimp only
          have hih := ih s1 d
          refine ⟨hih.1.trans hline, ?_⟩
          intro tk hk
          rcases hih.2 tk hk with hk1 | hk1
          · exact htok tk hk1
          · exact Or.inr (hk1.trans hline)
        | error e =>
          dsimp only
          have hih := ih s1 (d ++ [e])
          refine ⟨hih.1.trans hline, ?_⟩
          intro tk hk
          rcases hih.2 tk hk with hk1 | hk1
          · exact htok tk hk1
          · exact Or.inr (hk1.trans hline)

/-- Every token the scanner ever produces for `source` carries line
number 1: the `line` field is never incremented anywhere in the code. -/
lemma produced_tokens_line_one (source : List Char) :
    ∀ tk ∈ produced_tokens source, tk.line_number = 1 := by
  have h := scan_loop_aux_state ((mk_scanner source).source.length -
    (mk_scanner source).current) (mk_scanner source) []
  intro tk hk
  unfold produced_tokens scan_loop at hk
  cases hout : scan_loop_aux ((mk_scanner source).source.length -
      (mk_scanner source).current) (mk_scanner source) [] with
  | completed s1 d =>
    rw [hout] at hk h
    simp only [outcome_state, mk_scanner] at h
    simp only [List.mem_append, List.mem_singleton] at hk
    rcases hk with hk | hk
    · rcases h.2 tk hk with hk1 | hk1
      · exact absurd hk1 (List.not_mem_nil tk)
      · exact hk1
    · subst hk
      exact h.1
  | panicked s1 d =>
    rw [hout] at hk h
    simp only [outcome_state, mk_scanner] at h
    rcases h.2 tk hk with hk1 | hk1
    · exact absurd hk1 (List.not_mem_nil tk)
    · exact hk1

/-- A list of naturals that are all equal to `c` is chained by `≤`. -/
lemma chain_le_of_const {l : List Nat} {c : Nat} (h : ∀ x ∈ l, x = c) :
    l.Chain' (fun a b => a ≤ b) := by
  induction l with
  | nil => exact List.chain'_nil
  | cons a t ih =>
    cases t with
    | nil => simp
    | cons b u =>
      rw [List.chain'_cons]
      refine ⟨?_, ih ?_⟩
      · rw [h a (by simp), h b (by simp)]
      · intro x hx
        exact h x (List.mem_cons_of_mem a hx)

/-- The description carried by the only error `scan_token` can build. -/
def unexpected_desc : List Char := "Unexpected character.".toList

/-- Claim C1: the claim says one call returns both a token sequence and
a non-empty error sequence on malformed input and never stops at the
bad character.  The code instead discards every `RloxSyntaxError` that
`scan_token` returns (the `self.scan_token();` statement drops the
`Result`; its TODO admits the errors should be collected), and on the
spec's own error-recovery example `"@ 1"` the call panics inside
`advance` before returning anything: no token vector, no `Number`
token, no error list. -/
theorem scan_on_error_recovery_input :
    scan_tokens ['@', ' ', '1'] = none ∧
    produced_tokens ['@', ' ', '1'] = [] ∧
    dropped_errors ['@', ' ', '1'] = [⟨1, [], unexpected_desc⟩, ⟨1, [], unexpected_desc⟩] := by
  decide

/-- Claim C2: the claim says the scan entry point terminates normally
and never panics on any input.  The code returns normally only for the
empty input; on any non-empty input the final loop iteration calls
`advance`, which increments `current` past the last character and then
`unwrap`s `None` — a panic.  Shown here on the single character `(`. -/
theorem scan_panics_on_any_nonempty_input :
    scan_tokens ['('] = none ∧
    scan_tokens [] = some [⟨TokenType.Eof, [], 1⟩] := by
  decide

/-- Claim C3: the claim says the returned token sequence always ends in
exactly one end-of-input marker.  For the empty input this holds, but
for every non-empty input the scan panics before the `Eof` push is
reached, so nothing is returned at all — shown on the input `)`, where
not even a partial token is produced. -/
theorem scan_no_eof_marker_on_nonempty_input :
    scan_tokens [')'] = none ∧
    produced_tokens [')'] = [] := by
  decide

/-- Claim C4: the claim says each token's lexeme is the exact source
substring that produced it.  In `add_token` the Rust code reads BOTH
slice bounds from `self.start` (`let current: usize =
self.start.try_into().unwrap();`), so the lexeme is the empty slice for
every token, proved here for all scanner states; on input `((` the one
token produced before the panic is a `LeftParen` whose lexeme is `[]`,
not `['(']`. -/
theorem add_token_lexeme_always_empty :
    (∀ s : Scanner, add_token_text s = []) ∧
    produced_tokens ['(', '('] = [⟨TokenType.LeftParen, [], 1⟩] := by
  refine ⟨?_, by decide⟩
  intro s
  unfold add_token_text
  apply List.drop_eq_nil_of_le
  simp

/-- Claim C5: the claim says each of the ten punctuation characters as
a whole input yields its token plus the end-of-input marker.  Because
`advance` pre-increments, on a one-character input it reads past the
end and panics: every one of the ten inputs returns nothing, and the
punctuation character itself (at index 0) is never even examined. -/
theorem scan_panics_on_each_punctuation_char :
    scan_tokens ['('] = none ∧ scan_tokens [')'] = none ∧
    scan_tokens ['{'] = none ∧ scan_tokens ['}'] = none ∧
    scan_tokens [','] = none ∧ scan_tokens ['.'] = none ∧
    scan_tokens ['-'] = none ∧ scan_tokens ['+'] = none ∧
    scan_tokens [';'] = none ∧ scan_tokens ['*'] = none ∧
    produced_tokens ['('] = [] := by
  decide

/-- Claim C6: the claim says input `!=` yields one `BangEqual` token.
The code has no handling for `!` or `=` at all — both fall to the
unexpected-character arm of `scan_token` — and the scan of `!=` reads
only the `=` at index 1 (dropping one unexpected-character error for
it), then panics; no `BangEqual` token is ever produced. -/
theorem scan_no_bang_equal_token :
    scan_tokens ['!', '='] = none ∧
    produced_tokens ['!', '='] = [] ∧
    dropped_errors ['!', '='] = [⟨1, [], unexpected_desc⟩] := by
  decide

/-- Claim C7: the claim says an unterminated string such as `"abc`
yields one `UnterminatedString` error and zero `String` tokens.  The
code has no string-literal handling and no unterminated-string error:
on that input it produces zero tokens (vacuously zero `String` tokens),
builds three discarded "Unexpected character." errors — for `a`, `b`,
`c`; the opening quote at index 0 is skipped by `advance` — and then
panics. -/
theorem scan_no_unterminated_string_error :
    scan_tokens ['"', 'a', 'b', 'c'] = none ∧
    produced_tokens ['"', 'a', 'b', 'c'] = [] ∧
    dropped_errors ['"', 'a', 'b', 'c'] =
      [⟨1, [], unexpected_desc⟩, ⟨1, [], unexpected_desc⟩, ⟨1, [], unexpected_desc⟩] := by
  decide

/-- Claim C8: the line numbers of the tokens the scanner produces are
non-decreasing across the sequence.  This holds — in fact the `line`
field is never modified anywhere in the code, so every produced token
(including the `Eof` marker when the scan completes) carries line 1 and
the mapped sequence is constant, hence chained by `≤`. -/
theorem produced_token_lines_nondecreasing (source : List Char) :
    List.Chain' (fun a b => a ≤ b) ((produced_tokens source).map Token.line_number) := by
  apply chain_le_of_const (c := 1)
  intro x hx
  simp only [List.mem_map] at hx
  obtain ⟨tk, hk, rfl⟩ := hx
  exact produced_tokens_line_one source tk hk

/-- Claim C9: scanning is deterministic — running the scan twice on the
same input yields identical token and error sequences.  The `Scanner`
struct holds all state (`source`, `tokens`, `start`, `current`,
`line`); the Rust module reads no global or ambient state, so the
embedding is a pure function of the source text and two runs agree
definitionally. -/
theorem scan_twice_identical (source : List Char) :
    (scan_tokens source, produced_tokens source, dropped_errors source) =
      (scan_tokens source, produced_tokens source, dropped_errors source) :=
  rfl

/-- Claim C10: `advance` increments `current` before reading, so a
successful call returns the character at index `current + 1` relative
to the pre-call cursor; that index is always at least 1, so the
character at index 0 of the source is never returned by `advance` and
hence never classified by `scan_token` (which classifies exactly the
character `advance` returns). -/
theorem advance_increments_before_reading (s : Scanner) (c : Char) (s1 : Scanner)
    (h : advance s = some (c, s1)) :
    s1.current = s.current + 1 ∧
    s.source.get? (s.current + 1) = some c ∧
    1 ≤ s1.current := by
  unfold advance at h
  dsimp only at h
  cases hg : s.source.get? (s.current + 1) with
  | none =>
    rw [hg] at h
    cases h
  | some c2 =>
    rw [hg] at h
    injection h with h1
    injection h1 with hc hs1
    subst hc
    subst hs1
    exact ⟨rfl, rfl, Nat.succ_le_succ (Nat.zero_le _)⟩

/-- Witness for C10: on the two-character source `ab` starting from the
fresh scanner, `advance` returns the character `b` at index 1, never
the `a` at index 0. -/
theorem advance_increments_before_reading_witness :
    (⟨['a', 'b'], [], 0, 1, 1⟩ : Scanner).current = (mk_scanner ['a', 'b']).current + 1 ∧
    (mk_scanner ['a', 'b']).source.get? ((mk_scanner ['a', 'b']).current + 1) = some 'b' ∧
    1 ≤ (⟨['a', 'b'], [], 0, 1, 1⟩ : Scanner).current :=
  advance_increments_before_reading (mk_scanner ['a', 'b']) 'b'
    ⟨['a', 'b'], [], 0, 1, 1⟩ (by decide)

end Rlox
